import Mathlib

/-!
# maxhash.io: the statistics parser and the request-serving path

A shallow embedding of `stats.go`, `os/service.go` and `http/server.go`.

* Go strings are modelled by `String`; `int` and `int64` by `Int` (the values are only
  passed through, never computed with); `float64` by a type parameter `F` whose zero
  value is `0` (the values are only passed through).
* A Go function returning `(T, error)` returns a pair `T × Option String`, where `none`
  is the `nil` error and `some msg` carries the error text.
* Library routines the code calls (`os.ReadFile`, `filepath.Join`, `json.Unmarshal`, the
  `gin-contrib/cache` middleware, `btcec.ParsePubKey`) are fields of a record the
  functions take as an argument.
* `btcutil.DecodeAddress`, which decides what `IsValidBitcoinAddress` returns, is modelled
  down to the bech32 and base58check arithmetic, so that it can be evaluated on addresses.
* A handler runs on a `Context` that records, in order, the calls it makes: the response
  writes, the reverse proxy, the Stats Provider.
-/

deriving instance DecidableEq for Except

namespace Maxhash

/-! ## stats.go -/

/-- PoolStats represents merged pool statistics. -/
structure PoolStats (F : Type) where
  Runtime : Int
  LastUpdate : Int
  Users : Int
  Workers : Int
  Idle : Int
  Disconnected : Int
  Hashrate1m : String
  Hashrate5m : String
  Hashrate15m : String
  Hashrate1hr : String
  Hashrate6hr : String
  Hashrate1d : String
  Hashrate7d : String
  Diff : F
  Accepted : Int
  Rejected : Int
  BestShare : Int
  SPS1m : F
  SPS5m : F
  SPS15m : F
  SPS1h : F
deriving DecidableEq, Repr

/-- PoolStatusLine1 represents the first line of pool statistics. -/
structure PoolStatusLine1 where
  Runtime : Int
  LastUpdate : Int
  Users : Int
  Workers : Int
  Idle : Int
  Disconnected : Int
deriving DecidableEq, Repr

/-- PoolStatusLine2 represents the second line of pool statistics. -/
structure PoolStatusLine2 where
  Hashrate1m : String
  Hashrate5m : String
  Hashrate15m : String
  Hashrate1hr : String
  Hashrate6hr : String
  Hashrate1d : String
  Hashrate7d : String
deriving DecidableEq, Repr

/-- PoolStatusLine3 represents the third line of pool statistics. -/
structure PoolStatusLine3 (F : Type) where
  Diff : F
  Accepted : Int
  Rejected : Int
  BestShare : Int
  SPS1m : F
  SPS5m : F
  SPS15m : F
  SPS1h : F
deriving DecidableEq, Repr

/-- Worker represents a worker's statistics. -/
structure Worker (F : Type) where
  WorkerName : String
  Hashrate1m : String
  Hashrate5m : String
  Hashrate1hr : String
  Hashrate1d : String
  Hashrate7d : String
  LastShare : Int
  Shares : Int
  BestShare : F
  BestEver : Int
deriving DecidableEq, Repr

/-- UserStats represents user statistics. -/
structure UserStats (F : Type) where
  Hashrate1m : String
  Hashrate5m : String
  Hashrate1hr : String
  Hashrate1d : String
  Hashrate7d : String
  LastShare : Int
  Workers : Int
  Shares : Int
  BestShare : F
  BestEver : Int
  Authorised : Int
  Worker : List (Worker F)
deriving DecidableEq, Repr

/-- The Go zero value `PoolStats{}`. -/
def PoolStats.zero (F : Type) [Zero F] : PoolStats F :=
  { Runtime := 0, LastUpdate := 0, Users := 0, Workers := 0, Idle := 0, Disconnected := 0,
    Hashrate1m := "", Hashrate5m := "", Hashrate15m := "", Hashrate1hr := "",
    Hashrate6hr := "", Hashrate1d := "", Hashrate7d := "",
    Diff := 0, Accepted := 0, Rejected := 0, BestShare := 0,
    SPS1m := 0, SPS5m := 0, SPS15m := 0, SPS1h := 0 }

/-- The Go zero value `UserStats{}`. -/
def UserStats.zero (F : Type) [Zero F] : UserStats F :=
  { Hashrate1m := "", Hashrate5m := "", Hashrate1hr := "", Hashrate1d := "",
    Hashrate7d := "", LastShare := 0, Workers := 0, Shares := 0, BestShare := 0,
    BestEver := 0, Authorised := 0, Worker := [] }

/-- StatsService defines the interface for retrieving pool and user statistics. -/
structure StatsService (F : Type) where
  PoolStats : PoolStats F × Option String
  UserStats : String → UserStats F × Option String

/-- A runtime failure of a Go call that is not an `error` value: a panic (a read through
a nil pointer, an index outside an array), or the fuel of the handler loop running out. -/
inductive Fault where
  | nilPointerDereference
  | indexOutOfRange
  | fuel
deriving DecidableEq, Repr

/-! ## os/service.go -/

namespace Os

/-- The library routines `os/service.go` calls. `Unmarshal1`, `Unmarshal2`, `Unmarshal3`
and `UnmarshalUser` are `json.Unmarshal` at the four destination types; a decode error
is `Except.error` with the error text. -/
structure Env (F : Type) where
  ReadFile : String → Except String String
  Join : List String → String
  Unmarshal1 : String → Except String PoolStatusLine1
  Unmarshal2 : String → Except String PoolStatusLine2
  Unmarshal3 : String → Except String (PoolStatusLine3 F)
  UnmarshalUser : String → Except String (UserStats F)

/-- The pieces of `cs` between occurrences of `sep`, the current piece first. -/
def splitChars (sep : Char) : List Char → List (List Char)
  | [] => [[]]
  | c :: cs =>
    if c = sep then [] :: splitChars sep cs
    else
      match splitChars sep cs with
      | [] => [[c]]
      | l :: ls => (c :: l) :: ls

/-- Go `strings.Split(s, sep)` for a one-character separator: `s` cut at every `sep`,
giving one more piece than there are separators. -/
def Split (s : String) (sep : Char) : List String :=
  (splitChars sep s.data).map String.mk

/-- StatsService implements maxhash.StatsService using the filesystem. -/
structure StatsService where
  LogDir : String
deriving DecidableEq, Repr

/-- The method `(*StatsService).PoolStats` of `os/service.go`. -/
def StatsService.PoolStats {F : Type} [Zero F] (env : Env F) (s : StatsService) :
    PoolStats F × Option String :=
  let path := env.Join [s.LogDir, "pool", "pool.status"]
  match env.ReadFile path with
  | .error err => (PoolStats.zero F, some ("read pool.status file: " ++ err))
  | .ok bytes =>
    match Split bytes '\n' with
    | l0 :: l1s :: l2s :: _ =>
      match env.Unmarshal1 l0 with
      | .error err =>
        (PoolStats.zero F, some ("failed to unmarshal pool.status line 1: " ++ err))
      | .ok l1 =>
        match env.Unmarshal2 l1s with
        | .error err =>
          (PoolStats.zero F, some ("failed to unmarshal pool.status line 2: " ++ err))
        | .ok l2 =>
          match env.Unmarshal3 l2s with
          | .error err =>
            (PoolStats.zero F, some ("failed to unmarshal pool.status line 3: " ++ err))
          | .ok l3 =>
            ({ (PoolStats.zero F) with
                LastUpdate := l1.LastUpdate,
                Users := l1.Users,
                Workers := l1.Workers,
                Idle := l1.Idle,
                Disconnected := l1.Disconnected,
                Hashrate1m := l2.Hashrate1m,
                Hashrate5m := l2.Hashrate5m,
                Hashrate15m := l2.Hashrate15m,
                Hashrate1hr := l2.Hashrate1hr,
                Hashrate6hr := l2.Hashrate6hr,
                Hashrate1d := l2.Hashrate1d,
                Hashrate7d := l2.Hashrate7d,
                Diff := l3.Diff,
                Accepted := l3.Accepted,
                Rejected := l3.Rejected,
                BestShare := l3.BestShare,
                SPS1m := l3.SPS1m,
                SPS5m := l3.SPS5m,
                SPS15m := l3.SPS15m,
                SPS1h := l3.SPS1h }, none)
    | _ => (PoolStats.zero F, some "invalid pool.status file format")

/-- The method `(*StatsService).UserStats` of `os/service.go`. -/
def StatsService.UserStats {F : Type} [Zero F] (env : Env F) (s : StatsService)
    (username : String) : UserStats F × Option String :=
  let path := env.Join [s.LogDir, "users", username]
  match env.ReadFile path with
  | .error err => (UserStats.zero F, some ("read user stats file: " ++ err))
  | .ok bytes =>
    match env.UnmarshalUser bytes with
    | .error err => (UserStats.zero F, some ("unmarshal user stats file: " ++ err))
    | .ok stats => (stats, none)

/-- The value `(*StatsService)(nil)` as a `maxhash.StatsService`. -/
def StatsService.toStatsService {F : Type} [Zero F] (s : StatsService) (env : Env F) :
    Maxhash.StatsService F where
  PoolStats := s.PoolStats env
  UserStats := s.UserStats env

end Os

/-! ## btcutil: the address decoder

`IsValidBitcoinAddress` delegates to `DecodeAddress` of `github.com/btcsuite/btcutil`.
This section follows `address.go` of the library, at the revision that knows taproot
addresses (the first case of `TestIsValidBitcoinAddress` needs it), and the routines
under it: `chaincfg.IsBech32SegwitPrefix`, `bech32.DecodeGeneric`, `bech32.ConvertBits`,
`base58.CheckDecode`, `hex.DecodeString`. The key parser `btcec.ParsePubKey` is an
argument. Byte strings are lists of numbers below 256. A pointer is an `Option`, and
reading a field through `nil` is the panic `Fault.nilPointerDereference`. -/

namespace Btcutil

/-- The UTF-8 bytes of one character. -/
def utf8 (c : Char) : List Nat :=
  let n := c.toNat
  if n < 0x80 then [n]
  else if n < 0x800 then [0xC0 + n / 64, 0x80 + n % 64]
  else if n < 0x10000 then [0xE0 + n / 4096, 0x80 + n / 64 % 64, 0x80 + n % 64]
  else [0xF0 + n / 262144, 0x80 + n / 4096 % 64, 0x80 + n / 64 % 64, 0x80 + n % 64]

/-- A Go string as the byte sequence it is. -/
def bytes (s : String) : List Nat := s.data.flatMap utf8

/-- Go `strings.LastIndexByte`: the index of the last `b` in `s`, or `-1`. -/
def LastIndexByte (s : List Nat) (b : Nat) : Int :=
  match s.reverse.indexOf? b with
  | some i => (s.length : Int) - 1 - i
  | none => -1

/-- ASCII lower-casing of one byte, as `strings.ToLower` does on ASCII input. -/
def lowerByte (b : Nat) : Nat := if 65 ≤ b ∧ b ≤ 90 then b + 32 else b

/-! ### chaincfg -/

/-- The two address version bytes of `chaincfg.Params` that `DecodeAddress` reads. -/
structure Params where
  PubKeyHashAddrID : Nat
  ScriptHashAddrID : Nat
deriving DecidableEq, Repr

/-- `chaincfg.IsBech32SegwitPrefix`: the lower-cased prefix is one of those of the
networks registered by default ("bc1", "tb1", "bcrt1", "sb1"). -/
def IsBech32SegwitPrefix (pfx : List Nat) : Bool :=
  [bytes "bc1", bytes "tb1", bytes "bcrt1", bytes "sb1"].contains (pfx.map lowerByte)

/-! ### bech32 -/

namespace Bech32

/-- Which checksum constant a bech32 string carries: bech32 or bech32m. -/
inductive Version where
  | Version0
  | VersionM
deriving DecidableEq, Repr

/-- The 32 characters of the data part. -/
def charset : List Nat := bytes "qpzry9x8gf2tvdw0s3jn54khce6mua7l"

/-- The generator constants of the checksum. -/
def gen : List Nat := [0x3b6a57b2, 0x26508e6d, 0x1ea119fa, 0x3d4233dd, 0x2a1462b3]

/-- One step of the BCH checksum: fold the 5-bit value `v` into `chk`. -/
def polymodStep (chk v : Nat) : Nat :=
  let b := chk >>> 25
  let chk := ((chk &&& 0x1ffffff) <<< 5) ^^^ v
  (List.range 5).foldl
    (fun acc i => if (b >>> i) &&& 1 = 1 then acc ^^^ gen.getD i 0 else acc) chk

/-- The checksum over the expanded human-readable part, the data and the checksum. -/
def bech32Polymod (hrp : List Nat) (values : List Nat) : Nat :=
  let expanded := hrp.map (fun c => c >>> 5) ++ [0] ++ hrp.map (fun c => c &&& 31)
  (expanded ++ values).foldl polymodStep 1

/-- `toBytes`: each character as its index in the charset. -/
def toBytes : List Nat → Option (List Nat)
  | [] => some []
  | c :: cs =>
    match charset.indexOf? c, toBytes cs with
    | some i, some rest => some (i :: rest)
    | _, _ => none

/-- `bech32.DecodeGeneric`: the human-readable part, the 5-bit data without the checksum,
and which of the two checksum constants matched. -/
def DecodeGeneric (bech : List Nat) : Except String (List Nat × List Nat × Version) :=
  if bech.length > 90 then .error "invalid bech32 string length"
  else if bech.length < 8 then .error "invalid bech32 string length"
  else if bech.any (fun b => b < 33 || b > 126) then .error "invalid character in string"
  else
    let hasLower := bech.any (fun b => 97 ≤ b && b ≤ 122)
    let hasUpper := bech.any (fun b => 65 ≤ b && b ≤ 90)
    if hasLower && hasUpper then .error "string not all lowercase or all uppercase"
    else
      let bech := if hasUpper then bech.map lowerByte else bech
      let one := LastIndexByte bech 49
      if one < 1 ∨ one + 7 > bech.length then .error "invalid separator index"
      else
        let hrp := bech.take one.toNat
        let data := bech.drop (one.toNat + 1)
        match toBytes data with
        | none => .error "invalid character not part of charset"
        | some decoded =>
          let polymod := bech32Polymod hrp decoded
          let payload := decoded.take (decoded.length - 6)
          if polymod = 1 then .ok (hrp, payload, .Version0)
          else if polymod = 0x2bc830a3 then .ok (hrp, payload, .VersionM)
          else .error "invalid checksum"

/-- The regrouping loop of `ConvertBits(data, 5, 8, false)`: `acc` holds the `bits`
pending bits. -/
def regroup : List Nat → Nat → Nat → List Nat × Nat × Nat
  | [], acc, bits => ([], acc, bits)
  | v :: vs, acc, bits =>
    let acc := (acc <<< 5) ||| v
    let bits := bits + 5
    if bits ≥ 8 then
      let r := regroup vs (acc &&& (2 ^ (bits - 8) - 1)) (bits - 8)
      ((acc >>> (bits - 8)) :: r.1, r.2)
    else regroup vs acc bits

/-- `bech32.ConvertBits(data, 5, 8, false)`: an incomplete final group must be at most
4 bits, all zero. -/
def ConvertBits (data : List Nat) : Except String (List Nat) :=
  match regroup data 0 0 with
  | (out, acc, bits) =>
    if bits > 0 ∧ (bits > 4 ∨ acc ≠ 0) then .error "invalid incomplete group"
    else .ok out

end Bech32

/-- `decodeSegWitAddress`: the witness version and the witness program. -/
def decodeSegWitAddress (address : List Nat) : Except String (Nat × List Nat) :=
  match Bech32.DecodeGeneric address with
  | .error e => .error e
  | .ok (_, data, bech32version) =>
    match data with
    | [] => .error "no witness version"
    | version :: rest =>
      if version > 16 then .error "invalid witness version"
      else
        match Bech32.ConvertBits rest with
        | .error e => .error e
        | .ok regrouped =>
          if regrouped.length < 2 ∨ regrouped.length > 40 then .error "invalid data length"
          else if version = 0 ∧ regrouped.length ≠ 20 ∧ regrouped.length ≠ 32 then
            .error "invalid data length for witness version 0"
          else if version = 0 ∧ bech32version ≠ .Version0 then
            .error "invalid checksum expected bech32 encoding for address with witness version 0"
          else if version = 1 ∧ bech32version ≠ .VersionM then
            .error "invalid checksum expected bech32m encoding for address with witness version 1"
          else .ok (version, regrouped)

/-! ### sha256 -/

namespace Sha256

/-- The round constants. -/
def K : List Nat := [
  0x428a2f98, 0x71374491, 0xb5c0fbcf, 0xe9b5dba5, 0x3956c25b, 0x59f111f1, 0x923f82a4, 0xab1c5ed5,
  0xd807aa98, 0x12835b01, 0x243185be, 0x550c7dc3, 0x72be5d74, 0x80deb1fe, 0x9bdc06a7, 0xc19bf174,
  0xe49b69c1, 0xefbe4786, 0x0fc19dc6, 0x240ca1cc, 0x2de92c6f, 0x4a7484aa, 0x5cb0a9dc, 0x76f988da,
  0x983e5152, 0xa831c66d, 0xb00327c8, 0xbf597fc7, 0xc6e00bf3, 0xd5a79147, 0x06ca6351, 0x14292967,
  0x27b70a85, 0x2e1b2138, 0x4d2c6dfc, 0x53380d13, 0x650a7354, 0x766a0abb, 0x81c2c92e, 0x92722c85,
  0xa2bfe8a1, 0xa81a664b, 0xc24b8b70, 0xc76c51a3, 0xd192e819, 0xd6990624, 0xf40e3585, 0x106aa070,
  0x19a4c116, 0x1e376c08, 0x2748774c, 0x34b0bcb5, 0x391c0cb3, 0x4ed8aa4a, 0x5b9cca4f, 0x682e6ff3,
  0x748f82ee, 0x78a5636f, 0x84c87814, 0x8cc70208, 0x90befffa, 0xa4506ceb, 0xbef9a3f7, 0xc67178f2]

/-- Rotate the 32-bit word `x` right by `n`. -/
def rotr (x n : Nat) : Nat := ((x >>> n) ||| (x <<< (32 - n))) % 2 ^ 32

/-- The message, a one bit, zeros, and the bit length in 64 bits, filling whole blocks. -/
def pad (msg : List Nat) : List Nat :=
  let l := msg.length
  let z := (64 - (l + 9) % 64) % 64
  msg ++ [0x80] ++ List.replicate z 0 ++
    [0, 0, 0, 0, (l * 8) / 2 ^ 24 % 256, (l * 8) / 2 ^ 16 % 256, (l * 8) / 2 ^ 8 % 256,
     (l * 8) % 256]

/-- Big-endian 32-bit words of a byte sequence. -/
def words : List Nat → List Nat
  | a :: b :: c :: d :: rest => (a * 2 ^ 24 + b * 2 ^ 16 + c * 2 ^ 8 + d) :: words rest
  | _ => []

/-- Extend the message schedule by `n` words; `ws` holds it latest word first. -/
def extend : Nat → List Nat → List Nat
  | 0, ws => ws
  | n + 1, ws =>
    let w2 := ws.getD 1 0
    let w7 := ws.getD 6 0
    let w15 := ws.getD 14 0
    let w16 := ws.getD 15 0
    let s0 := rotr w15 7 ^^^ rotr w15 18 ^^^ (w15 >>> 3)
    let s1 := rotr w2 17 ^^^ rotr w2 19 ^^^ (w2 >>> 10)
    extend n (((w16 + s0 + w7 + s1) % 2 ^ 32) :: ws)

/-- The eight working variables. -/
structure State where
  a : Nat
  b : Nat
  c : Nat
  d : Nat
  e : Nat
  f : Nat
  g : Nat
  h : Nat

/-- One round, with the constant and the schedule word `kw`. -/
def round (s : State) (kw : Nat × Nat) : State :=
  let S1 := rotr s.e 6 ^^^ rotr s.e 11 ^^^ rotr s.e 25
  let ch := (s.e &&& s.f) ^^^ ((s.e ^^^ 0xffffffff) &&& s.g)
  let t1 := (s.h + S1 + ch + kw.1 + kw.2) % 2 ^ 32
  let S0 := rotr s.a 2 ^^^ rotr s.a 13 ^^^ rotr s.a 22
  let maj := (s.a &&& s.b) ^^^ (s.a &&& s.c) ^^^ (s.b &&& s.c)
  let t2 := (S0 + maj) % 2 ^ 32
  ⟨(t1 + t2) % 2 ^ 32, s.a, s.b, s.c, (s.d + t1) % 2 ^ 32, s.e, s.f, s.g⟩

/-- The compression of one 64-byte block into the state. -/
def compress (hs : State) (block : List Nat) : State :=
  let ws := (extend 48 (words block).reverse).reverse
  let r := (K.zip ws).foldl round hs
  ⟨(hs.a + r.a) % 2 ^ 32, (hs.b + r.b) % 2 ^ 32, (hs.c + r.c) % 2 ^ 32, (hs.d + r.d) % 2 ^ 32,
   (hs.e + r.e) % 2 ^ 32, (hs.f + r.f) % 2 ^ 32, (hs.g + r.g) % 2 ^ 32, (hs.h + r.h) % 2 ^ 32⟩

/-- Compress `n` blocks in turn. -/
def blocks : Nat → List Nat → State → State
  | 0, _, s => s
  | n + 1, bs, s => blocks n (bs.drop 64) (compress s (bs.take 64))

/-- The four big-endian bytes of a 32-bit word. -/
def be4 (x : Nat) : List Nat := [x / 2 ^ 24 % 256, x / 2 ^ 16 % 256, x / 2 ^ 8 % 256, x % 256]

/-- `sha256.Sum256`: the 32-byte digest of `msg`. -/
def sum256 (msg : List Nat) : List Nat :=
  let p := pad msg
  let s := blocks (p.length / 64) p
    ⟨0x6a09e667, 0xbb67ae85, 0x3c6ef372, 0xa54ff53a, 0x510e527f, 0x9b05688c, 0x1f83d9ab,
     0x5be0cd19⟩
  be4 s.a ++ be4 s.b ++ be4 s.c ++ be4 s.d ++ be4 s.e ++ be4 s.f ++ be4 s.g ++ be4 s.h

end Sha256

/-! ### base58 -/

namespace Base58

/-- The 58 characters of the alphabet. -/
def alphabet : List Nat := bytes "123456789ABCDEFGHJKLMNPQRSTUVWXYZabcdefghijkmnopqrstuvwxyz"

/-- The rune `utf8.RuneError`, which stands for an invalid encoding. -/
def RuneError : Nat := 0xFFFD

/-- `utf8.DecodeRuneInString`: the first rune of `p` and its width in bytes. An encoding
that is invalid, too long for the rune, or cut off is `RuneError` of width 1. -/
def DecodeRune (p : List Nat) : Nat × Nat :=
  match p with
  | [] => (RuneError, 0)
  | p0 :: rest =>
    if p0 < 0x80 then (p0, 1)
    else if p0 < 0xC2 ∨ 0xF4 < p0 then (RuneError, 1)
    else
      let sz := if p0 < 0xE0 then 2 else if p0 < 0xF0 then 3 else 4
      let lo := if p0 = 0xE0 then 0xA0 else if p0 = 0xF0 then 0x90 else 0x80
      let hi := if p0 = 0xED then 0x9F else if p0 = 0xF4 then 0x8F else 0xBF
      if p.length < sz then (RuneError, 1)
      else
        match rest with
        | [] => (RuneError, 1)
        | b1 :: rest1 =>
          if b1 < lo ∨ hi < b1 then (RuneError, 1)
          else if sz = 2 then (((p0 &&& 0x1F) <<< 6) ||| (b1 &&& 0x3F), 2)
          else
            match rest1 with
            | [] => (RuneError, 1)
            | b2 :: rest2 =>
              if b2 < 0x80 ∨ 0xBF < b2 then (RuneError, 1)
              else if sz = 3 then
                (((p0 &&& 0x0F) <<< 12) ||| ((b1 &&& 0x3F) <<< 6) ||| (b2 &&& 0x3F), 3)
              else
                match rest2 with
                | [] => (RuneError, 1)
                | b3 :: _ =>
                  if b3 < 0x80 ∨ 0xBF < b3 then (RuneError, 1)
                  else
                    (((p0 &&& 0x07) <<< 18) ||| ((b1 &&& 0x3F) <<< 12) |||
                      ((b2 &&& 0x3F) <<< 6) ||| (b3 &&& 0x3F), 4)

/-- The runes `for _, v := range t` visits; `n` bounds the number of turns. -/
def runes : Nat → List Nat → List Nat
  | 0, _ => []
  | n + 1, t =>
    if t = [] then []
    else
      let r := DecodeRune t
      r.1 :: runes n (t.drop r.2)

/-- The inner loop of `Decode` over the runes of one chunk: `tmp := b58[v]` panics for a
rune `v` beyond the 256 entries of the table; `tmp == 255`, a rune outside the alphabet,
makes `Decode` return empty (`none` here); otherwise `total = total*58 + tmp`. A chunk
has at most 10 digits, so `total` stays below `2 ^ 64`. -/
def chunkTotal : List Nat → Nat → Except Fault (Option Nat)
  | [], total => .ok (some total)
  | v :: vs, total =>
    if v ≥ 256 then .error .indexOutOfRange
    else
      match alphabet.indexOf? v with
      | none => .ok none
      | some tmp => chunkTotal vs (total * 58 + tmp)

/-- The outer loop of `Decode`: the string is taken in chunks of at most 10 bytes, and
`answer = answer * 58^n + total` for a chunk of `n` bytes. `k` bounds the number of
chunks. -/
def decodeChunks : Nat → List Nat → Nat → Except Fault (Option Nat)
  | 0, _, answer => .ok (some answer)
  | k + 1, t, answer =>
    if t = [] then .ok (some answer)
    else
      let n := min t.length 10
      match chunkTotal (runes n (t.take n)) 0 with
      | .error f => .error f
      | .ok none => .ok none
      | .ok (some total) => decodeChunks k (t.drop n) (answer * 58 ^ n + total)

/-- The big-endian bytes of `n`, none for zero (`big.Int.Bytes`); `k` bounds the length. -/
def natBytes : Nat → Nat → List Nat → List Nat
  | 0, _, acc => acc
  | k + 1, n, acc => if n = 0 then acc else natBytes k (n / 256) (n % 256 :: acc)

/-- `base58.Decode`: the string is ranged over by rune; a rune of 256 or more panics, a
rune outside the alphabet gives the empty result; each leading '1' is a zero byte. -/
def Decode (b : List Nat) : Except Fault (List Nat) :=
  match decodeChunks b.length b 0 with
  | .error f => .error f
  | .ok none => .ok []
  | .ok (some answer) =>
    let numZeros := (b.takeWhile (fun c => c = 49)).length
    .ok (List.replicate numZeros 0 ++ natBytes b.length answer [])

/-- The first four bytes of the double SHA-256 of `input`. -/
def checksum (input : List Nat) : List Nat :=
  (Sha256.sum256 (Sha256.sum256 input)).take 4

/-- The two errors of `CheckDecode`. -/
inductive Error where
  | ErrChecksum
  | ErrInvalidFormat
deriving DecidableEq, Repr

/-- `base58.CheckDecode`: the payload and the version byte. The outer `Except` is the
panic of `Decode`. -/
def CheckDecode (input : List Nat) : Except Fault (Except Error (List Nat × Nat)) :=
  match Decode input with
  | .error f => .error f
  | .ok decoded =>
    if decoded.length < 5 then .ok (.error .ErrInvalidFormat)
    else
      let version := decoded.headD 0
      let cksum := decoded.drop (decoded.length - 4)
      if checksum (decoded.take (decoded.length - 4)) ≠ cksum then .ok (.error .ErrChecksum)
      else .ok (.ok ((decoded.take (decoded.length - 4)).drop 1, version))

end Base58

/-! ### hex -/

/-- The value of one hexadecimal digit. -/
def fromHexChar (c : Nat) : Option Nat :=
  if 48 ≤ c ∧ c ≤ 57 then some (c - 48)
  else if 97 ≤ c ∧ c ≤ 102 then some (c - 97 + 10)
  else if 65 ≤ c ∧ c ≤ 70 then some (c - 65 + 10)
  else none

/-- `hex.DecodeString`. -/
def DecodeString : List Nat → Except String (List Nat)
  | [] => .ok []
  | [_] => .error "encoding/hex: odd length hex string"
  | a :: b :: rest =>
    match fromHexChar a, fromHexChar b, DecodeString rest with
    | some x, some y, .ok out => .ok ((x * 16 + y) :: out)
    | none, _, _ => .error "encoding/hex: invalid byte"
    | _, none, _ => .error "encoding/hex: invalid byte"
    | _, _, .error e => .error e

/-! ### address.go -/

/-- The address kinds `DecodeAddress` builds. The segwit kinds keep the human-readable
part in lower case; their witness version is fixed by the kind. -/
inductive Address where
  | AddressPubKeyHash (hash : List Nat) (netID : Nat)
  | AddressScriptHash (hash : List Nat) (netID : Nat)
  | AddressPubKey (serialized : List Nat) (pubKeyHashID : Nat)
  | AddressWitnessPubKeyHash (hrp : List Nat) (program : List Nat)
  | AddressWitnessScriptHash (hrp : List Nat) (program : List Nat)
  | AddressTaproot (hrp : List Nat) (program : List Nat)
deriving DecidableEq, Repr

/-- Reading a field through a pointer: a nil pointer panics. -/
def deref {α : Type} : Option α → Except Fault α
  | some p => .ok p
  | none => .error .nilPointerDereference

/-- `NewAddressPubKey(serializedPubKey, net)`: parse the key, then read
`net.PubKeyHashAddrID`. -/
def NewAddressPubKey (ParsePubKey : List Nat → Except String Unit) (serializedPubKey : List Nat)
    (net : Option Params) : Except Fault (Except String Address) :=
  match ParsePubKey serializedPubKey with
  | .error e => .ok (.error e)
  | .ok _ => do
    let p ← deref net
    pure (.ok (.AddressPubKey serializedPubKey p.PubKeyHashAddrID))

/-- `btcutil.DecodeAddress(addr, defaultNet)`. The outer `Except` is a panic (of
`base58.Decode`, or of a read through a nil `defaultNet`), the inner one the returned
`error`. -/
def DecodeAddress (ParsePubKey : List Nat → Except String Unit) (addr : String)
    (defaultNet : Option Params) : Except Fault (Except String Address) :=
  let addr := bytes addr
  let oneIndex := LastIndexByte addr 49
  let pfx := addr.take (oneIndex + 1).toNat
  if oneIndex > 1 ∧ IsBech32SegwitPrefix pfx then
    match decodeSegWitAddress addr with
    | .error e => .ok (.error e)
    | .ok (witnessVer, witnessProg) =>
      if witnessVer ≠ 0 ∧ witnessVer ≠ 1 then .ok (.error "unsupported witness version")
      else
        let hrp := (pfx.take (pfx.length - 1)).map lowerByte
        if witnessProg.length = 20 then
          .ok (.ok (.AddressWitnessPubKeyHash hrp witnessProg))
        else if witnessProg.length = 32 then
          if witnessVer = 1 then .ok (.ok (.AddressTaproot hrp witnessProg))
          else .ok (.ok (.AddressWitnessScriptHash hrp witnessProg))
        else .ok (.error "unsupported witness program length")
  else if addr.length = 130 ∨ addr.length = 66 then
    match DecodeString addr with
    | .error e => .ok (.error e)
    | .ok serializedPubKey => NewAddressPubKey ParsePubKey serializedPubKey defaultNet
  else
    match Base58.CheckDecode addr with
    | .error f => .error f
    | .ok (.error .ErrChecksum) => .ok (.error "checksum mismatch")
    | .ok (.error _) => .ok (.error "decoded address is of unknown format")
    | .ok (.ok (decoded, netID)) =>
      if decoded.length = 20 then do
        let isP2PKH := netID = (← deref defaultNet).PubKeyHashAddrID
        let isP2SH := netID = (← deref defaultNet).ScriptHashAddrID
        if isP2PKH ∧ isP2SH then pure (.error "address collision")
        else if isP2PKH then pure (.ok (.AddressPubKeyHash decoded netID))
        else if isP2SH then pure (.ok (.AddressScriptHash decoded netID))
        else pure (.error "unknown address type")
      else .ok (.error "decoded address is of unknown format")

end Btcutil

/-! ## http/server.go -/

namespace Http

/-- IsValidBitcoinAddress returns true if the address is a valid Bitcoin address.
`btcutil.DecodeAddress` is called with a nil `defaultNet`; a panic of the decoder is a
panic of this function. -/
def IsValidBitcoinAddress (ParsePubKey : List Nat → Except String Unit) (address : String) :
    Except Fault Bool :=
  match Btcutil.DecodeAddress ParsePubKey address none with
  | .error f => .error f
  | .ok (.error _) => .ok false
  | .ok (.ok _) => .ok true

/-- The parts of `http.Request` a handler can pass on. -/
structure Request where
  Method : String
  URL : String
  Header : List (String × String)
  Body : String
deriving DecidableEq, Repr

/-- The reverse proxy `httputil.NewSingleHostReverseProxy(hostURL)`. -/
structure ReverseProxy where
  hostURL : String
deriving DecidableEq, Repr

/-- The limiter `rate.Limiter` as one request sees it: `Allow` is what `Allow()` reports
for this request, that is, whether a token is available now. -/
structure Limiter where
  Allow : Bool
deriving DecidableEq, Repr

/-- The value handed to `c.JSON`. -/
inductive Obj (F : Type) where
  | pool (stats : PoolStats F)
  | user (stats : UserStats F)
deriving DecidableEq, Repr

/-- What a request does, in the order it happens. `enter` marks the start of a handler of
the chain; the `write` events are the response calls `c.String`, `c.JSON`, `c.Data`;
`ServeHTTP` is the reverse proxy serving the request into the response writer;
`PoolStats` and `UserStats` are the calls of the Stats Provider. -/
inductive Event (F : Type) where
  | enter (handler : String)
  | Allow
  | writeString (code : Nat) (text : String)
  | writeJSON (code : Nat) (obj : Obj F)
  | writeData (code : Nat) (contentType : String) (data : String)
  | ServeHTTP (proxy : ReverseProxy) (req : Request)
  | PoolStats
  | UserStats (username : String)
  | slogError (msg : String) (err : String)
deriving DecidableEq, Repr

/-- The request context `gin.Context`: the request, the path parameters the router
extracted, the index of the running handler, and what has happened so far. -/
structure Context (F : Type) where
  Request : Request
  Params : List (String × String)
  index : Int
  trace : List (Event F)
deriving DecidableEq, Repr

/-- The index `gin` gives an aborted context. -/
def abortIndex : Int := 63

namespace Context

variable {F : Type}

/-- Append one event. -/
def log (c : Context F) (e : Event F) : Context F :=
  { c with trace := c.trace ++ [e] }

/-- `c.Param(key)`: the value of the first path parameter named `key`, or "". -/
def Param (c : Context F) (key : String) : String :=
  match c.Params.find? (fun p => p.1 = key) with
  | some p => p.2
  | none => ""

/-- `c.String(code, text)`. -/
def writeString (c : Context F) (code : Nat) (text : String) : Context F :=
  c.log (.writeString code text)

/-- `c.JSON(code, obj)`. -/
def JSON (c : Context F) (code : Nat) (obj : Obj F) : Context F :=
  c.log (.writeJSON code obj)

/-- `c.Data(code, contentType, data)`. -/
def Data (c : Context F) (code : Nat) (contentType : String) (data : String) : Context F :=
  c.log (.writeData code contentType data)

/-- `c.Abort()`. -/
def Abort (c : Context F) : Context F :=
  { c with index := abortIndex }

end Context

/-- A `gin.HandlerFunc`. Its first argument is what `c.Next()` does when called inside
the handler. -/
structure HandlerFunc (F : Type) where
  name : String
  run : (Context F → Except Fault (Context F)) → Context F → Except Fault (Context F)

/-- The loop of `(*Context).Next`: while `c.index` is below the number of handlers, run
the handler at `c.index`, then increment `c.index`. Each turn of the loop and each
nested call of `Next` takes one unit of `fuel`. -/
def runHandlers {F : Type} (handlers : List (HandlerFunc F)) :
    Nat → Context F → Except Fault (Context F)
  | 0, _ => .error .fuel
  | fuel + 1, c =>
    if c.index < handlers.length then
      if c.index < 0 then .error .indexOutOfRange
      else
        match handlers.get? c.index.toNat with
        | none => .error .indexOutOfRange
        | some h =>
          match h.run (fun c1 => runHandlers handlers fuel { c1 with index := c1.index + 1 })
              (c.log (.enter h.name)) with
          | .error f => .error f
          | .ok c2 => runHandlers handlers fuel { c2 with index := c2.index + 1 }
    else .ok c

/-- `(*Context).Next`: increment `c.index`, then loop. -/
def Next {F : Type} (handlers : List (HandlerFunc F)) (fuel : Nat) (c : Context F) :
    Except Fault (Context F) :=
  runHandlers handlers fuel { c with index := c.index + 1 }

/-- `gin.RouterGroup`. -/
structure RouterGroup (F : Type) where
  basePath : String
  Handlers : List (HandlerFunc F)

/-- One registered route. -/
structure RouteInfo (F : Type) where
  Method : String
  Path : String
  Handlers : List (HandlerFunc F)

/-- `gin.Engine`: the root group and the registered routes, in registration order. -/
structure Engine (F : Type) where
  group : RouterGroup F
  routes : List (RouteInfo F)

/-- The path of a group or route under `basePath`, for a `relativePath` starting with
a slash. -/
def joinPaths (basePath relativePath : String) : String :=
  String.mk (basePath.data.reverse.dropWhile (fun ch => ch = '/')).reverse ++ relativePath

/-- `gin.New()`. -/
def New (F : Type) : Engine F :=
  { group := { basePath := "/", Handlers := [] }, routes := [] }

/-- `(*RouterGroup).Use`. -/
def RouterGroup.Use {F : Type} (g : RouterGroup F) (middleware : List (HandlerFunc F)) :
    RouterGroup F :=
  { g with Handlers := g.Handlers ++ middleware }

/-- `(*RouterGroup).Group`: the new group starts with a copy of the handlers its parent
has at this moment. -/
def RouterGroup.Group {F : Type} (g : RouterGroup F) (relativePath : String) :
    RouterGroup F :=
  { basePath := joinPaths g.basePath relativePath, Handlers := g.Handlers }

/-- `(*Engine).Use`. -/
def Engine.Use {F : Type} (e : Engine F) (middleware : List (HandlerFunc F)) : Engine F :=
  { e with group := e.group.Use middleware }

/-- `(*RouterGroup).Handle`: register `handlers` after the handlers of the group. -/
def Engine.Handle {F : Type} (e : Engine F) (g : RouterGroup F) (httpMethod : String)
    (relativePath : String) (handlers : List (HandlerFunc F)) : Engine F :=
  { e with routes := e.routes ++
      [{ Method := httpMethod, Path := joinPaths g.basePath relativePath,
         Handlers := g.Handlers ++ handlers }] }

/-- `(*RouterGroup).GET`. -/
def Engine.GET {F : Type} (e : Engine F) (g : RouterGroup F) (relativePath : String)
    (handler : HandlerFunc F) : Engine F :=
  e.Handle g "GET" relativePath [handler]

/-- `(*RouterGroup).StaticFS`: a file-serving handler under `relativePath`, for GET and
HEAD. -/
def Engine.StaticFS {F : Type} (e : Engine F) (g : RouterGroup F) (relativePath : String)
    (fileServer : HandlerFunc F) : Engine F :=
  (e.Handle g "GET" (relativePath ++ "/*filepath") [fileServer]).Handle g "HEAD"
    (relativePath ++ "/*filepath") [fileServer]

/-- The routine `(*Engine).handleHTTPRequest` for a request the router matched to `route`:
the context starts at index `-1` with the handlers of the route, and `Next` runs them. -/
def Engine.handleHTTPRequest {F : Type} (route : RouteInfo F) (fuel : Nat) (c : Context F) :
    Except Fault (Context F) :=
  Next route.Handlers fuel { c with index := -1 }

/-- The library and embedded parts `http/server.go` uses: `btcec.ParsePubKey` (reached
through `btcutil.DecodeAddress`), the middleware `cache.SiteCache(store, 0)`, the file
server of the embedded `static` directory, and the two embedded pages. -/
structure Lib (F : Type) (Store : Type) where
  ParsePubKey : List Nat → Except String Unit
  SiteCache : Store → HandlerFunc F
  staticFS : HandlerFunc F
  indexPageHTML : String
  userPageHTML : String

/-- Server wraps http.Server. -/
structure Server (F : Type) (Store : Type) where
  StatsSvc : StatsService F
  limiter : Option Limiter
  store : Option Store
  proxy : Option ReverseProxy

namespace Server

variable {F : Type} {Store : Type}

/-- The handler `(*Server).limitHandler`. -/
def limitHandler (s : Server F Store) : HandlerFunc F where
  name := "limitHandler"
  run := fun next c =>
    match s.limiter with
    | some l =>
      let c := c.log .Allow
      if !l.Allow then
        .ok ((c.writeString 429 "Rate limit exceeded. Slow down! 🐢").Abort)
      else next c
    | none => next c

/-- The handler `(*Server).indexPageHandler`. -/
def indexPageHandler (_s : Server F Store) (lib : Lib F Store) : HandlerFunc F where
  name := "indexPageHandler"
  run := fun _ c => .ok (c.Data 200 "text/html; charset=utf-8" lib.indexPageHTML)

/-- The handler `(*Server).poolStatusHandler`. -/
def poolStatusHandler (s : Server F Store) : HandlerFunc F where
  name := "poolStatusHandler"
  run := fun _ c =>
    match s.proxy with
    | some proxy => .ok (c.log (.ServeHTTP proxy c.Request))
    | none =>
      let c := c.log .PoolStats
      match s.StatsSvc.PoolStats with
      | (_, some err) =>
        .ok ((c.log (.slogError "Error getting pool stats" err)).writeString 500
          "failed to get pool stats")
      | (stats, none) => .ok (c.JSON 200 (.pool stats))

/-- The handler `(*Server).userPageHandler`. -/
def userPageHandler (_s : Server F Store) (lib : Lib F Store) : HandlerFunc F where
  name := "userPageHandler"
  run := fun _ c => .ok (c.Data 200 "text/html; charset=utf-8" lib.userPageHTML)

/-- The handler `(*Server).userHandler`. -/
def userHandler (s : Server F Store) (lib : Lib F Store) : HandlerFunc F where
  name := "userHandler"
  run := fun _ c =>
    let username := c.Param "username"
    let invalid : Except Fault Bool :=
      if username = "" then .ok true
      else (IsValidBitcoinAddress lib.ParsePubKey username).map (fun valid => !valid)
    match invalid with
    | .error f => .error f
    | .ok true => .ok (c.writeString 400 "invalid user path or Bitcoin address")
    | .ok false =>
      match s.proxy with
      | some proxy => .ok (c.log (.ServeHTTP proxy c.Request))
      | none =>
        let c := c.log (.UserStats username)
        match s.StatsSvc.UserStats username with
        | (_, some err) =>
          .ok ((c.log (.slogError "Error getting user stats" err)).writeString 500
            "failed to get user stats")
        | (userStats, none) => .ok (c.JSON 200 (.user userStats))

/-- The route table `(*Server).ListenAndServe` builds before it starts listening. -/
def ListenAndServe (s : Server F Store) (lib : Lib F Store) : Engine F :=
  let engine := New F
  let engine := if s.limiter.isSome then engine.Use [s.limitHandler] else engine
  let api := engine.group.Group "/v1"
  let api :=
    match s.store with
    | some store => api.Use [lib.SiteCache store]
    | none => api
  let engine := engine.GET api "/pool" s.poolStatusHandler
  let engine := engine.GET api "/users/:username" (s.userHandler lib)
  let engine := engine.StaticFS engine.group "/static" lib.staticFS
  let pages := engine.group.Group "/"
  let engine := engine.GET pages "/users/:username" (s.userPageHandler lib)
  let engine := engine.GET pages "/" (s.indexPageHandler lib)
  engine

end Server

/-! ### The stages of a chain -/

/-- The stage the rate limiter puts in front of every chain. -/
def limiterStage {F Store : Type} (s : Server F Store) : List (HandlerFunc F) :=
  if s.limiter.isSome then [s.limitHandler] else []

/-- The stage the cache puts in the chains of the API group. -/
def cacheStage {F Store : Type} (s : Server F Store) (lib : Lib F Store) :
    List (HandlerFunc F) :=
  match s.store with
  | some store => [lib.SiteCache store]
  | none => []

/-- The events of the limiter stage when it lets the request through. -/
def limiterEvents {F Store : Type} (s : Server F Store) : List (Event F) :=
  match s.limiter with
  | some _ => [Event.enter "limitHandler", Event.Allow]
  | none => []

/-- The route `GET /v1/users/:username` as `ListenAndServe` registers it. -/
def userRoute {F Store : Type} (s : Server F Store) (lib : Lib F Store) : RouteInfo F :=
  { Method := "GET", Path := "/v1/users/:username",
    Handlers := limiterStage s ++ cacheStage s lib ++ [s.userHandler lib] }

/-- The route `GET /v1/pool` as `ListenAndServe` registers it. -/
def poolRoute {F Store : Type} (s : Server F Store) (lib : Lib F Store) : RouteInfo F :=
  { Method := "GET", Path := "/v1/pool",
    Handlers := limiterStage s ++ cacheStage s lib ++ [s.poolStatusHandler] }

end Http

/-! ## Sample inputs

A decoder for the fragment of JSON the pool status file of the specification uses, a
file system given by a list of files, and the records built from them. They serve to
evaluate the functions above on concrete inputs.

The fragment is one flat object whose keys are json tags of the destination, each
written exactly as the tag and at most once, and whose values are strings without
escapes or decimal numbers without exponent. Everything else (`null`, booleans, nested
values, keys in another case or unknown to the destination, integers beyond int64) is
refused with an error, so the decoder answers on fewer inputs than `json.Unmarshal`. -/

namespace Sample

/-- A float64 value given by the decimal literal it is written as: the number
`digits / 10 ^ scale`, negated when `negative`. -/
structure Decimal where
  negative : Bool
  digits : Nat
  scale : Nat
deriving DecidableEq, Repr

instance : Zero Decimal := ⟨{ negative := false, digits := 0, scale := 0 }⟩

/-- A member value of a flat JSON object: a string, or a number literal kept as its sign,
integer digits and fraction digits. -/
inductive Value where
  | str (s : String)
  | num (neg : Bool) (int : List Char) (frac : List Char)
deriving DecidableEq, Repr

/-- Where the scanner stands in `\x7b "key" : value , ... \x7d`. -/
inductive Mode where
  | start
  | first
  | member
  | key (acc : List Char)
  | colon (k : String)
  | value (k : String)
  | str (k : String) (acc : List Char)
  | num (k : String) (acc : List Char)
  | after
  | done

/-- JSON white space. -/
def isSpace (c : Char) : Bool :=
  c.toNat = 32 || c.toNat = 9 || c.toNat = 10 || c.toNat = 13

/-- A decimal digit. -/
def isDigit (c : Char) : Bool := 48 ≤ c.toNat && c.toNat ≤ 57

/-- A number literal `-?digits(.digits)?`, the integer part without a leading zero unless
it is `0`; exponents are outside the fragment. -/
def mkNum (cs : List Char) : Option Value :=
  let (neg, body) :=
    match cs with
    | '-' :: rest => (true, rest)
    | _ => (false, cs)
  let int := body.takeWhile isDigit
  if int = [] || (int.length > 1 && int.head? = some '0') then none
  else
    match body.dropWhile isDigit with
    | [] => some (.num neg int [])
    | '.' :: frac =>
      if frac = [] || !frac.all isDigit then none else some (.num neg int frac)
    | _ => none

/-- What follows a complete member value. -/
def afterValue (c : Char) : Option Mode :=
  if isSpace c then some .after
  else if c = ',' then some .member
  else if c = Char.ofNat 125 then some .done
  else none

/-- Scan the input in mode `mode`; `acc` holds the members read, latest first. -/
def scan : Mode → List (String × Value) → List Char → Except String (List (String × Value))
  | .done, acc, [] => .ok acc.reverse
  | _, _, [] => .error "unexpected end of JSON input"
  | mode, acc, c :: cs =>
    match mode with
    | .start =>
      if isSpace c then scan .start acc cs
      else if c = Char.ofNat 123 then scan .first acc cs
      else .error "cannot unmarshal into Go value of struct type"
    | .first =>
      if isSpace c then scan .first acc cs
      else if c = Char.ofNat 34 then scan (.key []) acc cs
      else if c = Char.ofNat 125 then scan .done acc cs
      else .error "invalid character looking for beginning of object key string"
    | .member =>
      if isSpace c then scan .member acc cs
      else if c = Char.ofNat 34 then scan (.key []) acc cs
      else .error "invalid character looking for beginning of object key string"
    | .key k =>
      if c = Char.ofNat 34 then scan (.colon (String.mk k.reverse)) acc cs
      else if c = Char.ofNat 92 then .error "escape sequences are outside the fragment"
      else if c.toNat < 32 then .error "invalid character in string literal"
      else scan (.key (c :: k)) acc cs
    | .colon k =>
      if isSpace c then scan (.colon k) acc cs
      else if c = ':' then scan (.value k) acc cs
      else .error "invalid character after object key"
    | .value k =>
      if isSpace c then scan (.value k) acc cs
      else if c = Char.ofNat 34 then scan (.str k []) acc cs
      else if c = '-' || isDigit c then scan (.num k [c]) acc cs
      else .error "values other than strings and numbers are outside the fragment"
    | .str k v =>
      if c = Char.ofNat 34 then scan .after ((k, .str (String.mk v.reverse)) :: acc) cs
      else if c = Char.ofNat 92 then .error "escape sequences are outside the fragment"
      else if c.toNat < 32 then .error "invalid character in string literal"
      else scan (.str k (c :: v)) acc cs
    | .num k v =>
      if isDigit c || c = '.' then scan (.num k (c :: v)) acc cs
      else
        match mkNum v.reverse, afterValue c with
        | some n, some m => scan m ((k, n) :: acc) cs
        | _, _ => .error "invalid character in numeric literal"
    | .after =>
      match afterValue c with
      | some m => scan m acc cs
      | none => .error "invalid character after object key:value pair"
    | .done =>
      if isSpace c then scan .done acc cs
      else .error "invalid character after top-level value"

/-- Whether a key occurs twice. -/
def repeated : List String → Bool
  | [] => false
  | k :: ks => ks.contains k || repeated ks

/-- The members of a flat JSON object whose keys are among `tags`, each at most once. -/
def parseObject (tags : List String) (s : String) : Except String (List (String × Value)) :=
  match scan .start [] s.data with
  | .error e => .error e
  | .ok ms =>
    if ms.any (fun m => !tags.contains m.1) then
      .error "keys that are not a tag of the destination are outside the fragment"
    else if repeated (ms.map Prod.fst) then
      .error "repeated keys are outside the fragment"
    else .ok ms

/-- The member named `k`. -/
def lookup (k : String) (ms : List (String × Value)) : Option Value :=
  (ms.find? (fun m => m.1 = k)).map Prod.snd

/-- The number a digit string denotes. -/
def digitsToNat (ds : List Char) : Nat :=
  ds.foldl (fun n d => 10 * n + (d.toNat - 48)) 0

/-- An integer field: absent gives the zero value; a fraction, a string or a number that
does not fit int64 is an error. -/
def getInt (k : String) (ms : List (String × Value)) : Except String Int :=
  match lookup k ms with
  | none => .ok 0
  | some (.num neg int []) =>
    let v : Int := if neg then -(digitsToNat int : Int) else (digitsToNat int : Int)
    if -(2 ^ 63 : Int) ≤ v ∧ v < (2 ^ 63 : Int) then .ok v
    else .error ("cannot unmarshal number into Go struct field " ++ k ++ " of type int64")
  | some _ => .error ("cannot unmarshal into Go struct field " ++ k ++ " of type int64")

/-- A float64 field, kept as the decimal literal read; an integer part of more than 308
digits, which may exceed the range of float64, is outside the fragment. -/
def getFloat (k : String) (ms : List (String × Value)) : Except String Decimal :=
  match lookup k ms with
  | none => .ok 0
  | some (.num neg int frac) =>
    if int.length > 308 then .error "long number literals are outside the fragment"
    else .ok { negative := neg, digits := digitsToNat (int ++ frac), scale := frac.length }
  | some _ => .error ("cannot unmarshal into Go struct field " ++ k ++ " of type float64")

/-- A string field. -/
def getString (k : String) (ms : List (String × Value)) : Except String String :=
  match lookup k ms with
  | none => .ok ""
  | some (.str s) => .ok s
  | some _ => .error ("cannot unmarshal into Go struct field " ++ k ++ " of type string")


/-- Decode a line into `PoolStatusLine1`, by the json tags of its fields. -/
def Unmarshal1 (data : String) : Except String PoolStatusLine1 := do
  let ms ← parseObject
    ["runtime", "lastupdate", "Users", "Workers", "Idle", "Disconnected"] data
  let runtime ← getInt "runtime" ms
  let lastupdate ← getInt "lastupdate" ms
  let users ← getInt "Users" ms
  let workers ← getInt "Workers" ms
  let idle ← getInt "Idle" ms
  let disconnected ← getInt "Disconnected" ms
  pure { Runtime := runtime, LastUpdate := lastupdate, Users := users, Workers := workers,
         Idle := idle, Disconnected := disconnected }

/-- Decode a line into `PoolStatusLine2`, by the json tags of its fields. -/
def Unmarshal2 (data : String) : Except String PoolStatusLine2 := do
  let ms ← parseObject
    ["hashrate1m", "hashrate5m", "hashrate15m", "hashrate1hr", "hashrate6hr", "hashrate1d",
     "hashrate7d"] data
  let h1m ← getString "hashrate1m" ms
  let h5m ← getString "hashrate5m" ms
  let h15m ← getString "hashrate15m" ms
  let h1hr ← getString "hashrate1hr" ms
  let h6hr ← getString "hashrate6hr" ms
  let h1d ← getString "hashrate1d" ms
  let h7d ← getString "hashrate7d" ms
  pure { Hashrate1m := h1m, Hashrate5m := h5m, Hashrate15m := h15m, Hashrate1hr := h1hr,
         Hashrate6hr := h6hr, Hashrate1d := h1d, Hashrate7d := h7d }

/-- Decode a line into `PoolStatusLine3`, by the json tags of its fields. -/
def Unmarshal3 (data : String) : Except String (PoolStatusLine3 Decimal) := do
  let ms ← parseObject
    ["diff", "accepted", "rejected", "bestshare", "SPS1m", "SPS5m", "SPS15m", "SPS1h"] data
  let diff ← getFloat "diff" ms
  let accepted ← getInt "accepted" ms
  let rejected ← getInt "rejected" ms
  let bestshare ← getInt "bestshare" ms
  let sps1m ← getFloat "SPS1m" ms
  let sps5m ← getFloat "SPS5m" ms
  let sps15m ← getFloat "SPS15m" ms
  let sps1h ← getFloat "SPS1h" ms
  pure { Diff := diff, Accepted := accepted, Rejected := rejected, BestShare := bestshare,
         SPS1m := sps1m, SPS5m := sps5m, SPS15m := sps15m, SPS1h := sps1h }

/-- Decode a user file that has no `worker` member into `UserStats`, by the json tags of
its fields; a file with a `worker` member is outside the fragment and refused. -/
def UnmarshalUser (data : String) : Except String (UserStats Decimal) := do
  let ms ← parseObject
    ["hashrate1m", "hashrate5m", "hashrate1hr", "hashrate1d", "hashrate7d", "lastshare",
     "workers", "shares", "bestshare", "bestever", "authorised"] data
  let h1m ← getString "hashrate1m" ms
  let h5m ← getString "hashrate5m" ms
  let h1hr ← getString "hashrate1hr" ms
  let h1d ← getString "hashrate1d" ms
  let h7d ← getString "hashrate7d" ms
  let lastshare ← getInt "lastshare" ms
  let workers ← getInt "workers" ms
  let shares ← getInt "shares" ms
  let bestshare ← getFloat "bestshare" ms
  let bestever ← getInt "bestever" ms
  let authorised ← getInt "authorised" ms
  pure { Hashrate1m := h1m, Hashrate5m := h5m, Hashrate1hr := h1hr, Hashrate1d := h1d,
         Hashrate7d := h7d, LastShare := lastshare, Workers := workers, Shares := shares,
         BestShare := bestshare, BestEver := bestever, Authorised := authorised,
         Worker := [] }

/-- The environment in which the files are `files` (path and content) and paths are
joined with a slash. -/
def env (files : List (String × String)) : Os.Env Decimal where
  ReadFile := fun path =>
    match files.find? (fun f => f.1 = path) with
    | some f => .ok f.2
    | none => .error ("open " ++ path ++ ": no such file or directory")
  Join := fun elems => "/".intercalate elems
  Unmarshal1 := Unmarshal1
  Unmarshal2 := Unmarshal2
  Unmarshal3 := Unmarshal3
  UnmarshalUser := UnmarshalUser

/-- Line 1 of the example of the specification. -/
def line1 : String :=
  "\x7b\"Users\":5,\"Workers\":12,\"Idle\":0,\"Disconnected\":1,\"runtime\":100,\"lastupdate\":200\x7d"

/-- Line 2 of the example of the specification. -/
def line2 : String :=
  "\x7b\"hashrate1m\":\"10G\",\"hashrate5m\":\"9G\",\"hashrate15m\":\"9G\",\"hashrate1hr\":\"9G\",\"hashrate6hr\":\"8G\",\"hashrate1d\":\"8G\",\"hashrate7d\":\"7G\"\x7d"

/-- Line 3 of the example of the specification. -/
def line3 : String :=
  "\x7b\"diff\":1024.5,\"accepted\":99,\"rejected\":1,\"bestshare\":5000,\"SPS1m\":1.1,\"SPS5m\":1.0,\"SPS15m\":0.9,\"SPS1h\":0.8\x7d"

/-- The pool status file of the example of the specification. -/
def poolStatus : String := line1 ++ "\n" ++ line2 ++ "\n" ++ line3 ++ "\n"

/-- A pool status file of two lines. -/
def twoLines : String := line1 ++ "\n" ++ line2

/-- The service reading under `/var/log/ckpool`, the default log directory. -/
def service : Os.StatsService := { LogDir := "/var/log/ckpool" }

/-- The files of a pool directory holding the example file. -/
def files : List (String × String) := [("/var/log/ckpool/pool/pool.status", poolStatus)]

/-- The Bitcoin main network (`chaincfg.MainNetParams`). -/
def mainNet : Btcutil.Params := { PubKeyHashAddrID := 0, ScriptHashAddrID := 5 }

/-- The taproot address of `TestIsValidBitcoinAddress`. -/
def taproot : String := "bc1pd5zyzu4cgdw0270ykue34dfpy8ezuc0laannduy33vlvz66ss2tqqcyzqx"

/-- The address of `TestIsValidBitcoinAddress` with the invalid first character. -/
def badAddress : String := "4A1zP1eP5QGefi2DMPTfTL5SLmv7DivfNa"

/-- A pay-to-pubkey-hash address of the main network, the one the invalid cases of
`TestIsValidBitcoinAddress` are derived from. -/
def p2pkh : String := "1A1zP1eP5QGefi2DMPTfTL5SLmv7DivfNa"

/-- A pay-to-script-hash address of the main network. -/
def p2sh : String := "3J98t1WpEZ73CNmQviecrnyiWrnqRhWNLy"

/-- Library parts: a key parser that accepts nothing and a cache middleware that passes
every request on. -/
def lib : Http.Lib Decimal Unit where
  ParsePubKey := fun _ => .error "invalid pub key"
  SiteCache := fun _ => { name := "SiteCache", run := fun next c => next c }
  staticFS := { name := "StaticFS", run := fun _ c => .ok c }
  indexPageHTML := "<html>index</html>"
  userPageHTML := "<html>user</html>"

/-- A server over the example files, with the given limiter, cache store and proxy. -/
def server (limiter : Option Http.Limiter) (store : Option Unit)
    (proxy : Option Http.ReverseProxy) : Http.Server Decimal Unit where
  StatsSvc := service.toStatsService (env files)
  limiter := limiter
  store := store
  proxy := proxy

/-- The upstream of the default configuration. -/
def upstream : Http.ReverseProxy := { hostURL := "http://main.maxhash.io:8080" }

/-- The compressed encoding of the generator point of secp256k1, in hexadecimal. -/
def pubKeyHex : String :=
  "0279be667ef9dcbbac55a06295ce870b07029bfcdb2dce28d959f2815b16f81798"

/-- The 33 bytes `pubKeyHex` stands for. -/
def pubKey : List Nat :=
  [0x02, 0x79, 0xbe, 0x66, 0x7e, 0xf9, 0xdc, 0xbb, 0xac, 0x55, 0xa0, 0x62, 0x95, 0xce, 0x87,
   0x0b, 0x07, 0x02, 0x9b, 0xfc, 0xdb, 0x2d, 0xce, 0x28, 0xd9, 0x59, 0xf2, 0x81, 0x5b, 0x16,
   0xf8, 0x17, 0x98]

/-- A request for the pool statistics. -/
def poolContext : Http.Context Decimal where
  Request := { Method := "GET", URL := "/v1/pool", Header := [], Body := "" }
  Params := []
  index := -1
  trace := []

/-- A request for the statistics of `username`. -/
def context (username : String) : Http.Context Decimal where
  Request := { Method := "GET", URL := "/v1/users/" ++ username, Header := [], Body := "" }
  Params := [("username", username)]
  index := -1
  trace := []

end Sample

/-! # Theorems -/

set_option maxRecDepth 1000000

open Http

/-! ## Facts about `Split` -/

theorem splitChars_ne_nil (sep : Char) (cs : List Char) : Os.splitChars sep cs ≠ [] := by
  cases cs with
  | nil => simp [Os.splitChars]
  | cons c cs =>
    unfold Os.splitChars
    split
    · simp
    · split <;> simp

theorem splitChars_length (sep : Char) (cs : List Char) :
    (Os.splitChars sep cs).length = cs.count sep + 1 := by
  induction cs with
  | nil => simp [Os.splitChars]
  | cons c cs ih =>
    unfold Os.splitChars
    by_cases h : c = sep
    · subst h
      simp [ih]
    · have hne : (c == sep) = false := by simpa using h
      rw [if_neg h, List.count_cons, hne]
      cases hs : Os.splitChars sep cs with
      | nil => exact absurd hs (splitChars_ne_nil sep cs)
      | cons l ls =>
        rw [hs] at ih
        simpa using ih

theorem Split_length (s : String) (sep : Char) :
    (Os.Split s sep).length = s.data.count sep + 1 := by
  simp [Os.Split, splitChars_length]

/-! ## The pool status parser -/

/-- C2: a pool.status content with fewer than two newline characters splits into fewer
than three lines, and `PoolStats` then returns the zero-valued `PoolStats` together with
the error "invalid pool.status file format". -/
theorem PoolStats_fewer_than_three_lines {F : Type} [Zero F] (env : Os.Env F)
    (s : Os.StatsService) (content : String)
    (hread : env.ReadFile (env.Join [s.LogDir, "pool", "pool.status"]) = .ok content)
    (hlt : content.data.count '\n' < 2) :
    (Os.Split content '\n').length < 3 ∧
    Os.StatsService.PoolStats env s
      = (PoolStats.zero F, some "invalid pool.status file format") := by
  have hlen : (Os.Split content '\n').length < 3 := by
    rw [Split_length]; omega
  refine ⟨hlen, ?_⟩
  unfold Os.StatsService.PoolStats
  simp only [hread]
  split
  · rename_i heq
    rw [heq] at hlen
    simp only [List.length_cons] at hlen
    omega
  · rfl

/-- C1: when the first three newline-separated lines of pool.status decode into
`l1`, `l2` and `l3`, `PoolStats` returns no error and a `PoolStats` whose `LastUpdate`,
`Users`, `Workers`, `Idle`, `Disconnected` are those of `l1`, whose seven `Hashrate*`
windows are those of `l2`, and whose `Diff`, `Accepted`, `Rejected`, `BestShare`, `SPS1m`,
`SPS5m`, `SPS15m`, `SPS1h` are those of `l3`. -/
theorem PoolStats_merges_three_lines {F : Type} [Zero F] (env : Os.Env F)
    (s : Os.StatsService) (content l0 l1s l2s : String) (rest : List String)
    (l1 : PoolStatusLine1) (l2 : PoolStatusLine2) (l3 : PoolStatusLine3 F)
    (hread : env.ReadFile (env.Join [s.LogDir, "pool", "pool.status"]) = .ok content)
    (hsplit : Os.Split content '\n' = l0 :: l1s :: l2s :: rest)
    (h1 : env.Unmarshal1 l0 = .ok l1)
    (h2 : env.Unmarshal2 l1s = .ok l2)
    (h3 : env.Unmarshal3 l2s = .ok l3) :
    ∃ p : PoolStats F, Os.StatsService.PoolStats env s = (p, none) ∧
      p.LastUpdate = l1.LastUpdate ∧ p.Users = l1.Users ∧ p.Workers = l1.Workers ∧
      p.Idle = l1.Idle ∧ p.Disconnected = l1.Disconnected ∧
      p.Hashrate1m = l2.Hashrate1m ∧ p.Hashrate5m = l2.Hashrate5m ∧
      p.Hashrate15m = l2.Hashrate15m ∧ p.Hashrate1hr = l2.Hashrate1hr ∧
      p.Hashrate6hr = l2.Hashrate6hr ∧ p.Hashrate1d = l2.Hashrate1d ∧
      p.Hashrate7d = l2.Hashrate7d ∧
      p.Diff = l3.Diff ∧ p.Accepted = l3.Accepted ∧ p.Rejected = l3.Rejected ∧
      p.BestShare = l3.BestShare ∧ p.SPS1m = l3.SPS1m ∧ p.SPS5m = l3.SPS5m ∧
      p.SPS15m = l3.SPS15m ∧ p.SPS1h = l3.SPS1h := by
  unfold Os.StatsService.PoolStats
  simp only [hread, hsplit, h1, h2, h3]
  exact ⟨_, rfl, rfl, rfl, rfl, rfl, rfl, rfl, rfl, rfl, rfl, rfl, rfl, rfl, rfl, rfl, rfl,
    rfl, rfl, rfl, rfl, rfl⟩

/-- The example file of the specification: its three lines decode, and the merged
`PoolStats` has `Users = 5`, `Hashrate1m = "10G"` and `Diff = 1024.5`. -/
theorem PoolStats_merges_three_lines_witness :
    Os.Split Sample.poolStatus '\n' = [Sample.line1, Sample.line2, Sample.line3, ""] ∧
    ∃ p : PoolStats Sample.Decimal,
      Os.StatsService.PoolStats (Sample.env Sample.files) Sample.service = (p, none) ∧
      p.Users = 5 ∧ p.Hashrate1m = "10G" ∧
      p.Diff = { negative := false, digits := 10245, scale := 1 } := by
  refine ⟨by decide, ?_⟩
  obtain ⟨p, hp, _, hu, _, _, _, hh, _, _, _, _, _, _, hd, _⟩ :=
    PoolStats_merges_three_lines (Sample.env Sample.files) Sample.service Sample.poolStatus
      Sample.line1 Sample.line2 Sample.line3 [""]
      { Runtime := 100, LastUpdate := 200, Users := 5, Workers := 12, Idle := 0,
        Disconnected := 1 }
      { Hashrate1m := "10G", Hashrate5m := "9G", Hashrate15m := "9G", Hashrate1hr := "9G",
        Hashrate6hr := "8G", Hashrate1d := "8G", Hashrate7d := "7G" }
      { Diff := { negative := false, digits := 10245, scale := 1 }, Accepted := 99,
        Rejected := 1, BestShare := 5000,
        SPS1m := { negative := false, digits := 11, scale := 1 },
        SPS5m := { negative := false, digits := 10, scale := 1 },
        SPS15m := { negative := false, digits := 9, scale := 1 },
        SPS1h := { negative := false, digits := 8, scale := 1 } }
      (by decide) (by decide) (by decide) (by decide) (by decide)
  exact ⟨p, hp, hu, hh, hd⟩

/-- A pool.status of two lines has one newline, splits into two lines, and `PoolStats`
returns the zero value with the format error. -/
theorem PoolStats_fewer_than_three_lines_witness :
    Sample.twoLines.data.count '\n' = 1 ∧
    (Os.Split Sample.twoLines '\n').length < 3 ∧
    Os.StatsService.PoolStats
        (Sample.env [("/var/log/ckpool/pool/pool.status", Sample.twoLines)]) Sample.service
      = (PoolStats.zero Sample.Decimal, some "invalid pool.status file format") :=
  ⟨by decide,
   PoolStats_fewer_than_three_lines
     (Sample.env [("/var/log/ckpool/pool/pool.status", Sample.twoLines)]) Sample.service
     Sample.twoLines (by decide) (by decide)⟩

/-- Whatever the file holds, the `Runtime` of the `PoolStats` returned is zero. -/
theorem PoolStats_Runtime_zero {F : Type} [Zero F] (env : Os.Env F) (s : Os.StatsService) :
    (Os.StatsService.PoolStats env s).1.Runtime = 0 := by
  unfold Os.StatsService.PoolStats
  simp only
  repeat' (split <;> try rfl)

/-- C3, at the example file of the specification: line 1 decodes with
`Runtime = 100`, `PoolStats` succeeds, and the `Runtime` it returns is `0`: the field is
declared in both `PoolStatusLine1` and `PoolStats` and is lost in the merge. -/
theorem PoolStats_example_loses_Runtime :
    (Sample.env Sample.files).Unmarshal1 Sample.line1
        = .ok { Runtime := 100, LastUpdate := 200, Users := 5, Workers := 12, Idle := 0,
                Disconnected := 1 } ∧
    (Os.StatsService.PoolStats (Sample.env Sample.files) Sample.service).2 = none ∧
    (Os.StatsService.PoolStats (Sample.env Sample.files) Sample.service).1.Runtime = 0 ∧
    (Os.StatsService.PoolStats (Sample.env Sample.files) Sample.service).1.LastUpdate = 200 := by
  refine ⟨by decide, by decide, by decide, by decide⟩

/-! ## The address validator -/

/-- The six cases of `TestIsValidBitcoinAddress` evaluate as the test expects: the
taproot address is valid, the other five inputs are not. -/
theorem TestIsValidBitcoinAddress (ParsePubKey : List Nat → Except String Unit) :
    IsValidBitcoinAddress ParsePubKey
        "bc1pd5zyzu4cgdw0270ykue34dfpy8ezuc0laannduy33vlvz66ss2tqqcyzqx" = .ok true ∧
    IsValidBitcoinAddress ParsePubKey "" = .ok false ∧
    IsValidBitcoinAddress ParsePubKey
        "1A1zP1eP5QGefi2DMPTfTL5SLmv7DivfNa12345678901234567890" = .ok false ∧
    IsValidBitcoinAddress ParsePubKey "4A1zP1eP5QGefi2DMPTfTL5SLmv7DivfNa" = .ok false ∧
    IsValidBitcoinAddress ParsePubKey "1A1zP1eP5QGefi2DMPTfTL5SLmv7DivfNa!" = .ok false ∧
    IsValidBitcoinAddress ParsePubKey
        "tb2qfm6xv4z8t7w8w7w8w7w8w7w8w7w8w7w8w7w8w7" = .ok false :=
  ⟨rfl, rfl, rfl, rfl, rfl, rfl⟩

/-- C4, at the address `1A1zP1eP5QGefi2DMPTfTL5SLmv7DivfNa`: it is a canonical valid
address (with the main network parameters the decoder returns its pay-to-pubkey-hash
address), and `IsValidBitcoinAddress` does not return true for it: the decoder reads
`PubKeyHashAddrID` through the nil `defaultNet` and panics. -/
theorem IsValidBitcoinAddress_p2pkh_panics (ParsePubKey : List Nat → Except String Unit) :
    Btcutil.DecodeAddress ParsePubKey Sample.p2pkh (some Sample.mainNet)
      = .ok (.ok (.AddressPubKeyHash
          [0x62, 0xe9, 0x07, 0xb1, 0x5c, 0xbf, 0x27, 0xd5, 0x42, 0x53,
           0x99, 0xeb, 0xf6, 0xf0, 0xfb, 0x50, 0xeb, 0xb8, 0x8f, 0x18] 0)) ∧
    IsValidBitcoinAddress ParsePubKey Sample.p2pkh = .error .nilPointerDereference :=
  ⟨rfl, rfl⟩

/-- C5, at the pay-to-script-hash address `3J98t1WpEZ73CNmQviecrnyiWrnqRhWNLy` and at a
66-character hexadecimal public key: `IsValidBitcoinAddress` returns no boolean but
panics, reading a field of the nil network parameters (for the key, when the key parser
accepts its 33 bytes). -/
theorem IsValidBitcoinAddress_not_total (ParsePubKey : List Nat → Except String Unit) :
    Btcutil.DecodeAddress ParsePubKey Sample.p2sh (some Sample.mainNet)
      = .ok (.ok (.AddressScriptHash
          [0xb4, 0x72, 0xa2, 0x66, 0xd0, 0xbd, 0x89, 0xc1, 0x37, 0x06,
           0xa4, 0x13, 0x2c, 0xcf, 0xb1, 0x6f, 0x7c, 0x3b, 0x9f, 0xcb] 5)) ∧
    IsValidBitcoinAddress ParsePubKey Sample.p2sh = .error .nilPointerDereference ∧
    (Btcutil.bytes Sample.pubKeyHex).length = 66 ∧
    Btcutil.DecodeString (Btcutil.bytes Sample.pubKeyHex) = .ok Sample.pubKey ∧
    (ParsePubKey Sample.pubKey = .ok () →
      IsValidBitcoinAddress ParsePubKey Sample.pubKeyHex = .error .nilPointerDereference) := by
  refine ⟨rfl, rfl, rfl, rfl, ?_⟩
  intro hkey
  have hdec : Btcutil.DecodeAddress ParsePubKey Sample.pubKeyHex none
      = Btcutil.NewAddressPubKey ParsePubKey Sample.pubKey none := rfl
  unfold IsValidBitcoinAddress
  rw [hdec]
  simp [Btcutil.NewAddressPubKey, hkey, Btcutil.deref, bind, Except.bind]

/-- The base58 decoder ranges over the string by rune, in chunks of 10 bytes, and indexes
a table of 256 entries: a rune of 256 or more, also the `RuneError` of a rune cut by the
end of a chunk, is a panic of `IsValidBitcoinAddress`, not a `false`. A rune between 128
and 255 is only outside the alphabet. -/
theorem IsValidBitcoinAddress_wide_rune (ParsePubKey : List Nat → Except String Unit) :
    IsValidBitcoinAddress ParsePubKey "€" = .error .indexOutOfRange ∧
    IsValidBitcoinAddress ParsePubKey "1€" = .error .indexOutOfRange ∧
    IsValidBitcoinAddress ParsePubKey "123456789é" = .error .indexOutOfRange ∧
    IsValidBitcoinAddress ParsePubKey "é" = .ok false :=
  ⟨rfl, rfl, rfl, rfl⟩

/-! ## The handlers -/

/-- When `IsValidBitcoinAddress` panics on the `username`, `userHandler` panics with it
and writes nothing, with or without a proxy. -/
theorem userHandler_run_panic {F Store : Type} (s : Server F Store)
    (lib : Lib F Store) (next : Context F → Except Fault (Context F)) (c : Context F)
    (f : Fault) (hne : c.Param "username" ≠ "")
    (hpanic : IsValidBitcoinAddress lib.ParsePubKey (c.Param "username") = .error f) :
    (s.userHandler lib).run next c = .error f := by
  unfold Server.userHandler
  simp [hne, hpanic, Except.map]

/-- The empty string is not a valid address, whatever the key parser. -/
theorem IsValidBitcoinAddress_empty (ParsePubKey : List Nat → Except String Unit) :
    IsValidBitcoinAddress ParsePubKey "" = .ok false := rfl

/-- On an empty or invalid `username`, `userHandler` only writes the 400 response. -/
theorem userHandler_run_invalid {F Store : Type} (s : Server F Store)
    (lib : Lib F Store) (next : Context F → Except Fault (Context F)) (c : Context F)
    (hbad : c.Param "username" = "" ∨
      IsValidBitcoinAddress lib.ParsePubKey (c.Param "username") = .ok false) :
    (s.userHandler lib).run next c
      = .ok (c.writeString 400 "invalid user path or Bitcoin address") := by
  unfold Server.userHandler
  by_cases he : c.Param "username" = ""
  · simp [he]
  · rcases hbad with h | h
    · exact absurd h he
    · simp [he, h, Except.map]

/-- C6: when the `username` path parameter is empty or `IsValidBitcoinAddress` returns
false for it, `userHandler` writes the 400 response and does nothing else: the reverse
proxy is not invoked and `StatsSvc.UserStats` is not called, with or without a proxy. -/
theorem userHandler_rejects_invalid_username {F Store : Type} (s : Server F Store)
    (lib : Lib F Store) (next : Context F → Except Fault (Context F)) (c : Context F)
    (hbad : c.Param "username" = "" ∨
      IsValidBitcoinAddress lib.ParsePubKey (c.Param "username") = .ok false) :
    (s.userHandler lib).run next c
      = .ok { c with trace := c.trace ++
          [Event.writeString 400 "invalid user path or Bitcoin address"] } := by
  unfold Server.userHandler
  rcases hbad with h | h
  · simp [h, Context.writeString, Context.log]
  · by_cases he : c.Param "username" = ""
    · simp [he, Context.writeString, Context.log]
    · simp [he, h, Except.map, Context.writeString, Context.log]

/-- The address of the test with the invalid first character is rejected, and
`userHandler`, here with a proxy configured, answers 400 and nothing else. -/
theorem userHandler_rejects_invalid_username_witness :
    IsValidBitcoinAddress Sample.lib.ParsePubKey
        ((Sample.context Sample.badAddress).Param "username") = .ok false ∧
    ((Sample.server none none (some Sample.upstream)).userHandler Sample.lib).run
        (fun c => .ok c) (Sample.context Sample.badAddress)
      = .ok { Sample.context Sample.badAddress with
          trace := [Event.writeString 400 "invalid user path or Bitcoin address"] } :=
  ⟨by decide,
   userHandler_rejects_invalid_username (Sample.server none none (some Sample.upstream))
     Sample.lib (fun c => .ok c) (Sample.context Sample.badAddress) (Or.inr (by decide))⟩

/-- C7: with no proxy configured, `poolStatusHandler` answers 500 when `StatsSvc.PoolStats`
returns an error and otherwise 200 with the returned `PoolStats` as JSON; `userHandler`,
for a valid address, answers 500 when `StatsSvc.UserStats` returns an error and otherwise
200 with the returned `UserStats` as JSON. -/
theorem handlers_map_provider_result {F Store : Type} (s : Server F Store)
    (lib : Lib F Store) (next : Context F → Except Fault (Context F)) (c : Context F)
    (hproxy : s.proxy = none) :
    (∀ stats err, s.StatsSvc.PoolStats = (stats, some err) →
      s.poolStatusHandler.run next c
        = .ok { c with trace := c.trace ++
            [Event.PoolStats, Event.slogError "Error getting pool stats" err,
             Event.writeString 500 "failed to get pool stats"] }) ∧
    (∀ stats, s.StatsSvc.PoolStats = (stats, none) →
      s.poolStatusHandler.run next c
        = .ok { c with trace := c.trace ++
            [Event.PoolStats, Event.writeJSON 200 (Obj.pool stats)] }) ∧
    (IsValidBitcoinAddress lib.ParsePubKey (c.Param "username") = .ok true →
      (∀ stats err, s.StatsSvc.UserStats (c.Param "username") = (stats, some err) →
        (s.userHandler lib).run next c
          = .ok { c with trace := c.trace ++
              [Event.UserStats (c.Param "username"),
               Event.slogError "Error getting user stats" err,
               Event.writeString 500 "failed to get user stats"] }) ∧
      (∀ stats, s.StatsSvc.UserStats (c.Param "username") = (stats, none) →
        (s.userHandler lib).run next c
          = .ok { c with trace := c.trace ++
              [Event.UserStats (c.Param "username"),
               Event.writeJSON 200 (Obj.user stats)] })) := by
  refine ⟨?_, ?_, ?_⟩
  · intro stats err h
    simp [Server.poolStatusHandler, hproxy, h, Context.writeString, Context.log]
  · intro stats h
    simp [Server.poolStatusHandler, hproxy, h, Context.JSON, Context.log]
  · intro hvalid
    have hne : c.Param "username" ≠ "" := by
      intro h0
      rw [h0, IsValidBitcoinAddress_empty] at hvalid
      cases hvalid
    refine ⟨?_, ?_⟩
    · intro stats err h
      simp [Server.userHandler, hproxy, h, hne, hvalid, Except.map, Context.writeString,
        Context.log]
    · intro stats h
      simp [Server.userHandler, hproxy, h, hne, hvalid, Except.map, Context.JSON,
        Context.log]

/-- Over the example files and without a proxy: the pool request is answered 200 with
the parsed `PoolStats`, and the request for the taproot address of the test, whose user
file does not exist, is answered 500. -/
theorem handlers_map_provider_result_witness :
    (∃ stats, (Sample.server none none none).StatsSvc.PoolStats = (stats, none) ∧
      stats.Users = 5 ∧
      (Sample.server none none none).poolStatusHandler.run (fun c => .ok c)
          Sample.poolContext
        = .ok { Sample.poolContext with
            trace := [Event.PoolStats, Event.writeJSON 200 (Obj.pool stats)] }) ∧
    IsValidBitcoinAddress Sample.lib.ParsePubKey
        ((Sample.context Sample.taproot).Param "username") = .ok true ∧
    ((Sample.server none none none).userHandler Sample.lib).run (fun c => .ok c)
        (Sample.context Sample.taproot)
      = .ok { Sample.context Sample.taproot with
          trace := [Event.UserStats Sample.taproot,
            Event.slogError "Error getting user stats"
              ("read user stats file: open /var/log/ckpool/users/" ++ Sample.taproot ++
                ": no such file or directory"),
            Event.writeString 500 "failed to get user stats"] } := by
  have hp := handlers_map_provider_result (Sample.server none none none) Sample.lib
    (fun c => .ok c) Sample.poolContext rfl
  have hu := handlers_map_provider_result (Sample.server none none none) Sample.lib
    (fun c => .ok c) (Sample.context Sample.taproot) rfl
  refine ⟨⟨_, rfl, by decide, hp.2.1 _ rfl⟩, by decide, ?_⟩
  exact (hu.2.2 (by decide)).1 (UserStats.zero Sample.Decimal) _ (by decide)

/-- C10: with a reverse proxy configured, `poolStatusHandler` for every request, and
`userHandler` for every request with a valid address, pass the request of the context to
the proxy and do nothing else: no response is written by the handler and the Stats
Provider is not called. -/
theorem handlers_forward_to_proxy {F Store : Type} (s : Server F Store)
    (lib : Lib F Store) (next : Context F → Except Fault (Context F)) (c : Context F)
    (proxy : ReverseProxy) (hproxy : s.proxy = some proxy) :
    s.poolStatusHandler.run next c
      = .ok { c with trace := c.trace ++ [Event.ServeHTTP proxy c.Request] } ∧
    (IsValidBitcoinAddress lib.ParsePubKey (c.Param "username") = .ok true →
      (s.userHandler lib).run next c
        = .ok { c with trace := c.trace ++ [Event.ServeHTTP proxy c.Request] }) := by
  refine ⟨?_, ?_⟩
  · simp [Server.poolStatusHandler, hproxy, Context.log]
  · intro hvalid
    have hne : c.Param "username" ≠ "" := by
      intro h0
      rw [h0, IsValidBitcoinAddress_empty] at hvalid
      cases hvalid
    simp [Server.userHandler, hproxy, hne, hvalid, Except.map, Context.log]

/-- With the default upstream configured, the request for the taproot address of the
test is handed to the proxy as it came, by both handlers. -/
theorem handlers_forward_to_proxy_witness :
    (Sample.server none none (some Sample.upstream)).poolStatusHandler.run (fun c => .ok c)
        Sample.poolContext
      = .ok { Sample.poolContext with
          trace := [Event.ServeHTTP Sample.upstream
            { Method := "GET", URL := "/v1/pool", Header := [], Body := "" }] } ∧
    ((Sample.server none none (some Sample.upstream)).userHandler Sample.lib).run
        (fun c => .ok c) (Sample.context Sample.taproot)
      = .ok { Sample.context Sample.taproot with
          trace := [Event.ServeHTTP Sample.upstream
            { Method := "GET", URL := "/v1/users/" ++ Sample.taproot, Header := [],
              Body := "" }] } := by
  have hp := handlers_forward_to_proxy (Sample.server none none (some Sample.upstream))
    Sample.lib (fun c => .ok c) Sample.poolContext Sample.upstream rfl
  have hu := handlers_forward_to_proxy (Sample.server none none (some Sample.upstream))
    Sample.lib (fun c => .ok c) (Sample.context Sample.taproot) Sample.upstream rfl
  exact ⟨hp.1, hu.2 (by decide)⟩

/-! ## The handler chain -/

/-- The route table of `ListenAndServe`, written out. -/
theorem ListenAndServe_routes {F Store : Type} (s : Server F Store) (lib : Lib F Store) :
    (s.ListenAndServe lib).routes =
      [ poolRoute s lib,
        userRoute s lib,
        { Method := "GET", Path := "/static/*filepath",
          Handlers := limiterStage s ++ [lib.staticFS] },
        { Method := "HEAD", Path := "/static/*filepath",
          Handlers := limiterStage s ++ [lib.staticFS] },
        { Method := "GET", Path := "/users/:username",
          Handlers := limiterStage s ++ [s.userPageHandler lib] },
        { Method := "GET", Path := "/",
          Handlers := limiterStage s ++ [s.indexPageHandler lib] } ] := by
  unfold poolRoute userRoute limiterStage cacheStage
  cases hl : s.limiter <;> cases hs : s.store <;>
    simp [Server.ListenAndServe, hl, hs, New, Engine.Use, Engine.GET, Engine.Handle,
      Engine.StaticFS, RouterGroup.Group, RouterGroup.Use, joinPaths]

/-- The per-user route is registered. -/
theorem userRoute_mem {F Store : Type} (s : Server F Store) (lib : Lib F Store) :
    userRoute s lib ∈ (s.ListenAndServe lib).routes := by
  rw [ListenAndServe_routes]
  simp

/-- A chain that starts with `limitHandler`, when the limiter denies: the 429 response is
written, the context is aborted, and the loop ends without running another handler. -/
theorem runHandlers_denied {F Store : Type} (s : Server F Store) (l : Limiter)
    (hl : s.limiter = some l) (hdeny : l.Allow = false) (rest : List (HandlerFunc F))
    (hlen : rest.length < 63) (fuel : Nat) (c : Context F) :
    Next (s.limitHandler :: rest) (fuel + 2) { c with index := -1 }
      = .ok { c with
          index := abortIndex + 1,
          trace := c.trace ++
            [Event.enter "limitHandler", Event.Allow,
             Event.writeString 429 "Rate limit exceeded. Slow down! 🐢"] } := by
  have h0 : ((-1 : Int) + 1 < ((rest.length + 1 : Nat) : Int)) := by omega
  simp only [Next, runHandlers, List.length_cons]
  rw [if_pos h0]
  simp [Server.limitHandler, hl, hdeny, Context.log, Context.writeString, Context.Abort,
    runHandlers]
  intro h
  exfalso
  unfold abortIndex at h
  omega

/-- A chain that starts with `limitHandler`, when the limiter allows: the handler calls
`Next`, which runs the chain from the handler after it. -/
theorem runHandlers_allowed {F Store : Type} (s : Server F Store) (l : Limiter)
    (hl : s.limiter = some l) (hallow : l.Allow = true) (rest : List (HandlerFunc F))
    (fuel : Nat) (c : Context F) :
    Next (s.limitHandler :: rest) (fuel + 1) { c with index := -1 }
      = (runHandlers (s.limitHandler :: rest) fuel
          { c with index := 1,
                   trace := c.trace ++ [Event.enter "limitHandler", Event.Allow] }).bind
        (fun c2 => runHandlers (s.limitHandler :: rest) fuel
          { c2 with index := c2.index + 1 }) := by
  have h0 : ((-1 : Int) + 1 < ((rest.length + 1 : Nat) : Int)) := by omega
  simp only [Next, runHandlers, List.length_cons]
  rw [if_pos h0]
  simp [Server.limitHandler, hl, hallow, Context.log, Except.bind]
  split <;> simp_all

/-- Every registered chain is the limiter stage followed by one or two further handlers. -/
theorem routes_chain {F Store : Type} (s : Server F Store) (lib : Lib F Store)
    (r : RouteInfo F) (hr : r ∈ (s.ListenAndServe lib).routes) :
    ∃ h rest, rest.length ≤ 1 ∧ r.Handlers = limiterStage s ++ h :: rest := by
  rw [ListenAndServe_routes] at hr
  have hc : cacheStage s lib = [] ∨ ∃ h, cacheStage s lib = [h] := by
    unfold cacheStage
    cases s.store
    · exact Or.inl rfl
    · exact Or.inr ⟨_, rfl⟩
  simp only [List.mem_cons, List.mem_singleton, List.not_mem_nil, or_false] at hr
  rcases hr with rfl | rfl | rfl | rfl | rfl | rfl
  · rcases hc with h | ⟨h, hh⟩
    · exact ⟨s.poolStatusHandler, [], by simp, by simp [poolRoute, h]⟩
    · exact ⟨h, [s.poolStatusHandler], by simp, by simp [poolRoute, hh]⟩
  · rcases hc with h | ⟨h, hh⟩
    · exact ⟨s.userHandler lib, [], by simp, by simp [userRoute, h]⟩
    · exact ⟨h, [s.userHandler lib], by simp, by simp [userRoute, hh]⟩
  · exact ⟨_, [], by simp, rfl⟩
  · exact ⟨_, [], by simp, rfl⟩
  · exact ⟨_, [], by simp, rfl⟩
  · exact ⟨_, [], by simp, rfl⟩

/-- On every registered route, a request the limiter denies ends after `limitHandler`
with the 429 response. -/
theorem routes_denied {F Store : Type} (s : Server F Store) (lib : Lib F Store)
    (c : Context F) (l : Limiter) (hl : s.limiter = some l) (hdeny : l.Allow = false)
    (r : RouteInfo F) (hr : r ∈ (s.ListenAndServe lib).routes) (fuel : Nat) :
    Engine.handleHTTPRequest r (fuel + 2) c
      = .ok { c with
          index := abortIndex + 1,
          trace := c.trace ++
            [Event.enter "limitHandler", Event.Allow,
             Event.writeString 429 "Rate limit exceeded. Slow down! 🐢"] } := by
  obtain ⟨h, rest, hlen, hh⟩ := routes_chain s lib r hr
  have hstage : limiterStage s = [s.limitHandler] := by simp [limiterStage, hl]
  rw [hstage] at hh
  unfold Engine.handleHTTPRequest
  rw [hh]
  exact runHandlers_denied s l hl hdeny (h :: rest) (by simp; omega) fuel c

/-- C8: with a rate limiter configured that denies the request, on every registered route
the server writes the 429 response and aborts: the chain ends after `limitHandler`, so
no cache, proxy or Stats Provider stage runs. When the limiter allows the request, the
chain goes on with the handler after `limitHandler`, nothing written; and with no
limiter, `limitHandler` does nothing but call `Next` and is in no chain, so that every
chain starts at the stage after it. -/
theorem limitHandler_denies_or_continues {F Store : Type} (s : Server F Store)
    (lib : Lib F Store) (c : Context F) :
    (∀ l, s.limiter = some l → l.Allow = false →
      ∀ r ∈ (s.ListenAndServe lib).routes, ∀ fuel,
        Engine.handleHTTPRequest r (fuel + 2) c
          = .ok { c with
              index := abortIndex + 1,
              trace := c.trace ++
                [Event.enter "limitHandler", Event.Allow,
                 Event.writeString 429 "Rate limit exceeded. Slow down! 🐢"] }) ∧
    (∀ l, s.limiter = some l → l.Allow = true →
      ∀ r ∈ (s.ListenAndServe lib).routes, ∀ fuel,
        ∃ h rest, r.Handlers = s.limitHandler :: h :: rest ∧
          Engine.handleHTTPRequest r (fuel + 1) c
            = (runHandlers r.Handlers fuel
                { c with index := 1,
                         trace := c.trace ++ [Event.enter "limitHandler", Event.Allow] }).bind
              (fun c2 => runHandlers r.Handlers fuel { c2 with index := c2.index + 1 })) ∧
    (s.limiter = none →
      (∀ next, s.limitHandler.run next c = next c) ∧
      (s.ListenAndServe lib).routes.map (fun r => r.Handlers)
        = [cacheStage s lib ++ [s.poolStatusHandler],
           cacheStage s lib ++ [s.userHandler lib],
           [lib.staticFS], [lib.staticFS],
           [s.userPageHandler lib], [s.indexPageHandler lib]]) := by
  refine ⟨?_, ?_, ?_⟩
  · intro l hl hdeny r hr fuel
    exact routes_denied s lib c l hl hdeny r hr fuel
  · intro l hl hallow r hr fuel
    obtain ⟨h, rest, _, hh⟩ := routes_chain s lib r hr
    have hstage : limiterStage s = [s.limitHandler] := by simp [limiterStage, hl]
    rw [hstage] at hh
    refine ⟨h, rest, hh, ?_⟩
    unfold Engine.handleHTTPRequest
    rw [hh]
    exact runHandlers_allowed s l hl hallow (h :: rest) fuel c
  · intro hn
    refine ⟨?_, ?_⟩
    · intro next
      simp [Server.limitHandler, hn]
    · rw [ListenAndServe_routes]
      simp [poolRoute, userRoute, limiterStage, hn]

/-- With a denying limiter, a cache store and no proxy, the pool request is answered 429
and the trace holds nothing of the cache stage or of `poolStatusHandler`. -/
theorem limitHandler_denies_or_continues_witness :
    Engine.handleHTTPRequest
        (poolRoute (Sample.server (some { Allow := false }) (some ()) none) Sample.lib) 2
        Sample.poolContext
      = .ok { Sample.poolContext with
          index := 64,
          trace := [Event.enter "limitHandler", Event.Allow,
                    Event.writeString 429 "Rate limit exceeded. Slow down! 🐢"] } :=
  (limitHandler_denies_or_continues (Sample.server (some { Allow := false }) (some ()) none)
    Sample.lib Sample.poolContext).1 { Allow := false } rfl rfl
    (poolRoute (Sample.server (some { Allow := false }) (some ()) none) Sample.lib)
    (by rw [ListenAndServe_routes]; simp) 0

/-- C9 as stated fails: with a limiter that denies the request, the per-user route
`GET /v1/users/:username` (whose chain is `limitHandler`, then `userHandler`) answers a
request with an invalid address 429 from `limitHandler`; `userHandler` does not run and
no 400 is written. -/
theorem userRoute_limiter_before_validation :
    IsValidBitcoinAddress Sample.lib.ParsePubKey
        ((Sample.context Sample.badAddress).Param "username") = .ok false ∧
    userRoute (Sample.server (some { Allow := false }) none none) Sample.lib
      ∈ ((Sample.server (some { Allow := false }) none none).ListenAndServe Sample.lib).routes ∧
    (userRoute (Sample.server (some { Allow := false }) none none) Sample.lib).Handlers.map
        (fun h => h.name) = ["limitHandler", "userHandler"] ∧
    Engine.handleHTTPRequest
        (userRoute (Sample.server (some { Allow := false }) none none) Sample.lib) 10
        (Sample.context Sample.badAddress)
      = .ok { Sample.context Sample.badAddress with
          index := 64,
          trace := [Event.enter "limitHandler", Event.Allow,
                    Event.writeString 429 "Rate limit exceeded. Slow down! 🐢"] } ∧
    ¬ ∃ c1, Engine.handleHTTPRequest
        (userRoute (Sample.server (some { Allow := false }) none none) Sample.lib) 10
        (Sample.context Sample.badAddress) = .ok c1 ∧
      Event.writeString 400 "invalid user path or Bitcoin address" ∈ c1.trace := by
  have hrun : Engine.handleHTTPRequest
        (userRoute (Sample.server (some { Allow := false }) none none) Sample.lib) 10
        (Sample.context Sample.badAddress)
      = .ok { Sample.context Sample.badAddress with
          index := 64,
          trace := [Event.enter "limitHandler", Event.Allow,
                    Event.writeString 429 "Rate limit exceeded. Slow down! 🐢"] } := by
    decide
  refine ⟨by decide, userRoute_mem _ _, by decide, hrun, ?_⟩
  rintro ⟨c1, h1, hmem⟩
  rw [hrun] at h1
  cases h1
  revert hmem
  decide

/-- C9, amended: on the per-user route, validation runs in `userHandler`, after the
rate-limit and cache stages. For a request with an invalid address: when the limiter
denies it, the answer is 429 and nothing else happens; when the limiter allows it or none
is configured, and the cache stage (if any) passes the request on, `userHandler` writes
the 400 response, and neither the proxy nor the Stats Provider is called. -/
theorem userRoute_validation_after_limiter {F Store : Type} (s : Server F Store)
    (lib : Lib F Store) (c : Context F)
    (hbad : c.Param "username" = "" ∨
      IsValidBitcoinAddress lib.ParsePubKey (c.Param "username") = .ok false)
    (hmiss : ∀ store, s.store = some store →
      ∀ next c1, (lib.SiteCache store).run next c1 = next c1)
    (fuel : Nat) :
    userRoute s lib ∈ (s.ListenAndServe lib).routes ∧
    (∀ l, s.limiter = some l → l.Allow = false →
      Engine.handleHTTPRequest (userRoute s lib) (fuel + 4) c
        = .ok { c with
            index := abortIndex + 1,
            trace := c.trace ++
              [Event.enter "limitHandler", Event.Allow,
               Event.writeString 429 "Rate limit exceeded. Slow down! 🐢"] }) ∧
    ((s.limiter = none ∨ ∃ l, s.limiter = some l ∧ l.Allow = true) →
      ∃ c1, Engine.handleHTTPRequest (userRoute s lib) (fuel + 4) c = .ok c1 ∧
        c1.trace = c.trace ++ limiterEvents s ++
          (cacheStage s lib).map (fun h => Event.enter h.name) ++
          [Event.enter "userHandler",
           Event.writeString 400 "invalid user path or Bitcoin address"]) := by
  refine ⟨userRoute_mem s lib, ?_, ?_⟩
  · intro l hl hdeny
    exact routes_denied s lib c l hl hdeny (userRoute s lib) (userRoute_mem s lib) (fuel + 2)
  · intro hallow
    have huser := fun next c0 (hb : c0.Param "username" = c.Param "username") =>
      userHandler_run_invalid s lib next c0 (by rw [hb]; exact hbad)
    have hname : (s.userHandler lib).name = "userHandler" := rfl
    rcases hallow with hn | ⟨l, hl, ha⟩
    · cases hs : s.store with
      | none =>
        simp [userRoute, Engine.handleHTTPRequest, Next, runHandlers, limiterStage,
          cacheStage, limiterEvents, hn, hs, Context.log, Context.Param, huser, hname,
          Context.writeString]
      | some store =>
        simp [userRoute, Engine.handleHTTPRequest, Next, runHandlers, limiterStage,
          cacheStage, limiterEvents, hn, hs, Context.log, Context.Param, huser, hname,
          Context.writeString, hmiss store hs]
    · cases hs : s.store with
      | none =>
        simp [userRoute, Engine.handleHTTPRequest, Next, runHandlers, limiterStage,
          cacheStage, limiterEvents, hl, ha, hs, Context.log, Context.Param, huser, hname,
          Context.writeString, Server.limitHandler]
      | some store =>
        simp [userRoute, Engine.handleHTTPRequest, Next, runHandlers, limiterStage,
          cacheStage, limiterEvents, hl, ha, hs, Context.log, Context.Param, huser, hname,
          Context.writeString, Server.limitHandler, hmiss store hs]

/-- With an allowing limiter and a cache that passes the request on, the request with
the invalid address of the test goes through both stages and is answered 400 by
`userHandler`. -/
theorem userRoute_validation_after_limiter_witness :
    IsValidBitcoinAddress Sample.lib.ParsePubKey
        ((Sample.context Sample.badAddress).Param "username") = .ok false ∧
    ∃ c1, Engine.handleHTTPRequest
        (userRoute (Sample.server (some { Allow := true }) (some ()) none) Sample.lib) 4
        (Sample.context Sample.badAddress) = .ok c1 ∧
      c1.trace = [Event.enter "limitHandler", Event.Allow, Event.enter "SiteCache",
        Event.enter "userHandler",
        Event.writeString 400 "invalid user path or Bitcoin address"] :=
  ⟨by decide,
   (userRoute_validation_after_limiter (Sample.server (some { Allow := true }) (some ()) none)
      Sample.lib (Sample.context Sample.badAddress) (Or.inr (by decide))
      (fun _ _ _ _ => rfl) 0).2.2 (Or.inr ⟨{ Allow := true }, rfl, rfl⟩)⟩

end Maxhash
